import Mathlib

/-!
Shallow embedding of `src/nbody-mpi.c`, a distributed-memory N-body
simulation: pairwise softened Newtonian gravity, semi-implicit Euler
integration, static block partitioning of bodies across MPI ranks,
per-iteration broadcast / compute / gather, coordinator-side integration
and acceleration recording.

C `float` arithmetic is modelled by ideal real arithmetic (`ℝ`); `size_t`
quantities by `ℕ`.  The MPI collectives are modelled by their data-flow
semantics: `MPI_Bcast` hands every rank the coordinator state, and
`MPI_Gather` concatenates the per-rank partition buffers in rank order.
-/

namespace NBody

/-- The `body_t` struct of `src/nbody-mpi.c` (lines 14-19): position,
acceleration, velocity, mass, in declaration order. -/
structure Body where
  x : ℝ
  y : ℝ
  ax : ℝ
  ay : ℝ
  vx : ℝ
  vy : ℝ
  mass : ℝ


instance : Inhabited Body := ⟨⟨0, 0, 0, 0, 0, 0, 0⟩⟩

/-- Function `calculate_newton_gravity_acceleration` (lines 101-126): the
acceleration imparted on `first_body` by `second_body`, with softening
constant `eps2` (the global `simulation_softening_length_squared`).
Returns the pair `(*ax, *ay)` written through the out-parameters. -/
noncomputable def calculate_newton_gravity_acceleration
    (eps2 : ℝ) (first_body second_body : Body) : ℝ × ℝ :=
  let galactic_plane_r_x := second_body.x - first_body.x
  let galactic_plane_r_y := second_body.y - first_body.y
  let distance_squared :=
    (galactic_plane_r_x * galactic_plane_r_x +
     galactic_plane_r_y * galactic_plane_r_y) + eps2
  let distance_squared_cubed :=
    distance_squared * distance_squared * distance_squared
  let inverse := 1 / Real.sqrt distance_squared_cubed
  let scale := second_body.mass * inverse
  (galactic_plane_r_x * scale, galactic_plane_r_y * scale)

/-- Function `integrate` (lines 128-134): semi-implicit Euler.  The C code mutates
`vx`, `vy` first and then reads the *updated* velocities when advancing
`x`, `y`; the `let` sequencing reproduces that order. -/
def integrate (body : Body) (delta_time : ℝ) : Body :=
  let vx := body.vx + body.ax * delta_time
  let vy := body.vy + body.ay * delta_time
  let x := body.x + vx * delta_time
  let y := body.y + vy * delta_time
  { body with vx := vx, vy := vy, x := x, y := y }

/-- The inner loop of the compute phase (lines 226-241): total
acceleration on body `i`, summing the kernel over every `j` in
`[0, body_count)` and skipping the self pair (`first_body == second_body`
is pointer equality into one array, i.e. `j = i`). -/
noncomputable def totalAcceleration
    (eps2 : ℝ) (bodies : List Body) (i : ℕ) : ℝ × ℝ :=
  (List.range bodies.length).foldl
    (fun acc j =>
      if j = i then acc
      else
        let a := calculate_newton_gravity_acceleration eps2
          (bodies.getD i default) (bodies.getD j default)
        (acc.1 + a.1, acc.2 + a.2))
    (0, 0)

/-- Lines 243-245: the entry written into `sub_bodies` for body `i` — a
copy of `bodies[i]` with only `ax`, `ay` replaced by the freshly summed
totals. -/
noncomputable def computeBody (eps2 : ℝ) (bodies : List Body) (i : ℕ) : Body :=
  let first_body := bodies.getD i default
  { first_body with
      ax := (totalAcceleration eps2 bodies i).1
      ay := (totalAcceleration eps2 bodies i).2 }

/-- Line 207: `bodies_per_process = body_count / world_size`. -/
def bodiesPerProcess (body_count world_size : ℕ) : ℕ :=
  body_count / world_size

/-- Lines 217-223: the list of body indices rank `rank` iterates over:
`begin = rank * bodies_per_process`, `end = begin + bodies_per_process - 1`
clamped to `body_count - 1`, loop `for (i = begin; i <= end; ++i)`.
Subtraction is `ℕ`-truncated; the `size_t` underflow that the C code
would hit when `bodies_per_process = 0` (only possible at
`body_count = 0`) is outside the asserted precondition and not modelled. -/
def rankIndices (body_count world_size rank : ℕ) : List ℕ :=
  let bpp := bodiesPerProcess body_count world_size
  let b := rank * bpp
  let e0 := b + bpp - 1
  let e := if body_count ≤ e0 then body_count - 1 else e0
  List.range' b (e + 1 - b)

/-- Lines 216-248 for one iteration, all ranks: after the broadcast every
rank computes `computeBody` for each index in its partition, and
`MPI_Gather` concatenates the per-rank buffers in rank order into the
coordinator's `bodies` array. -/
noncomputable def gatherStep (eps2 : ℝ) (world_size : ℕ) (bodies : List Body) :
    List Body :=
  ((List.range world_size).map
    (fun rank =>
      (rankIndices bodies.length world_size rank).map
        (computeBody eps2 bodies))).flatten

/-- Lines 216-257, one full iteration from the coordinator's viewpoint:
broadcast, compute, gather, then integrate every body in index order and
record `(body->ax, body->ay)` *after* `integrate` ran (which leaves
`ax`, `ay` untouched).  Returns the new state and this iteration's
recorded acceleration pairs. -/
noncomputable def stepIteration (eps2 dt : ℝ) (world_size : ℕ)
    (bodies : List Body) : List Body × List (ℝ × ℝ) :=
  let gathered := gatherStep eps2 world_size bodies
  let integrated := gathered.map (fun b => integrate b dt)
  (integrated, integrated.map (fun b => (b.ax, b.ay)))

/-- The iteration loop (lines 212-258), `iters` repetitions; the recorded
acceleration pairs are accumulated in chronological order. -/
noncomputable def runSimulation (eps2 dt : ℝ) (world_size : ℕ) :
    ℕ → List Body → List Body × List (ℝ × ℝ)
  | 0, bodies => (bodies, [])
  | k + 1, bodies =>
    let step := stepIteration eps2 dt world_size bodies
    let rest := runSimulation eps2 dt world_size k step.1
    (rest.1, step.2 ++ rest.2)

/-- Line 177: `size_t iterations = time_period / delta_time;` — the real
quotient truncated to a natural number (floor for nonnegative
quotients, the only case the parameter ranges intend). -/
noncomputable def iterationsOf (time_period delta_time : ℝ) : ℕ :=
  Nat.floor (time_period / delta_time)

/-- One line of coordinator stdout: a `%zu` count, a lone `%f`, or a
`"%f %f"` pair. -/
inductive OutLine where
  | nat (n : ℕ)
  | real (r : ℝ)
  | pair (a b : ℝ)


/-- Lines 187-200: the Phase-1 snapshot — `body_count`, `time_period`,
`delta_time` on their own lines, then for each `i < body_count` the four
lines `x y`, `ax ay`, `vx vy`, `mass` of `bodies[i]`. -/
def phase1Output (body_count : ℕ) (time_period delta_time : ℝ)
    (bodies : List Body) : List OutLine :=
  [OutLine.nat body_count, OutLine.real time_period, OutLine.real delta_time] ++
    (List.range body_count).flatMap
      (fun i =>
        let body := bodies.getD i default
        [OutLine.pair body.x body.y,
         OutLine.pair body.ax body.ay,
         OutLine.pair body.vx body.vy,
         OutLine.real body.mass])

/-- Lines 260-264: the Phase-2 dump — one `"%f %f"` line per recorded
acceleration pair, in recording order. -/
def phase2Output (history : List (ℝ × ℝ)) : List OutLine :=
  history.map (fun p => OutLine.pair p.1 p.2)

/-- How a run of `main` ends on the coordinator: killed by the
divisibility assertion (line 206) with the output already emitted, or
normal completion (`EXIT_SUCCESS`) with the full output. -/
inductive RunResult where
  | aborted (out : List OutLine)
  | finished (out : List OutLine)


/-- Function `main` (lines 136-277) from the coordinator's viewpoint, after
argument parsing, with the pseudo-random `generate_debug_data` result
supplied as `init`.  Program order is the source's: rank 0 generates the
initial conditions and prints the Phase-1 snapshot (lines 184-204)
*before* the `assert(body_count % world_size == 0)` on line 206; only
then does the iteration loop run and the Phase-2 history get printed. -/
noncomputable def runMain (time_period delta_time : ℝ)
    (body_count world_size : ℕ) (eps2 : ℝ) (init : List Body) : RunResult :=
  let iterations := iterationsOf time_period delta_time
  let p1 := phase1Output body_count time_period delta_time init
  if body_count % world_size ≠ 0 then
    RunResult.aborted p1
  else
    let sim := runSimulation eps2 delta_time world_size iterations init
    RunResult.finished (p1 ++ phase2Output sim.2)

end NBody

namespace NBody

/-! ### Shared concrete inputs for witnesses -/

/-- A concrete body at the origin with unit mass. -/
def witnessBodyA : Body := ⟨0, 0, 0, 0, 0, 0, 1⟩

/-- A concrete body at `(1, 0)` with mass `2`. -/
def witnessBodyB : Body := ⟨1, 0, 0, 0, 0, 0, 2⟩

/-- Body 0 of the end-to-end scenario of §8: unit mass at the origin,
at rest, zero initial acceleration. -/
def scenarioBody0 : Body := ⟨0, 0, 0, 0, 0, 0, 1⟩

/-- Body 1 of the end-to-end scenario of §8: unit mass at `(1, 0)`,
at rest, zero initial acceleration. -/
def scenarioBody1 : Body := ⟨1, 0, 0, 0, 0, 0, 1⟩

/-- The initial body store of the end-to-end scenario. -/
def scenarioInit : List Body := [scenarioBody0, scenarioBody1]

/-! ### C3: the force kernel computes the specified softened-gravity law -/

/-- C3: for every softening constant `ε² ≥ 0` and bodies `A`, `B`, the
kernel output equals `(B.mass / d²^1.5) · r` componentwise, where
`r = B.position − A.position` and `d² = |r|² + ε²`; equivalently each
component is the corresponding component of `r` times
`B.mass / (d²·d²·d²)^0.5`. -/
theorem kernel_matches_spec_formula (eps2 : ℝ) (A B : Body) (heps : 0 ≤ eps2) :
    calculate_newton_gravity_acceleration eps2 A B =
      (B.mass /
          ((B.x - A.x) * (B.x - A.x) + (B.y - A.y) * (B.y - A.y) + eps2) ^
            (1.5 : ℝ) * (B.x - A.x),
        B.mass /
          ((B.x - A.x) * (B.x - A.x) + (B.y - A.y) * (B.y - A.y) + eps2) ^
            (1.5 : ℝ) * (B.y - A.y)) := by
  have hd2 : (0 : ℝ) ≤
      (B.x - A.x) * (B.x - A.x) + (B.y - A.y) * (B.y - A.y) + eps2 := by
    have h1 := mul_self_nonneg (B.x - A.x)
    have h2 := mul_self_nonneg (B.y - A.y)
    linarith
  have key :
      Real.sqrt
          (((B.x - A.x) * (B.x - A.x) + (B.y - A.y) * (B.y - A.y) + eps2) *
            ((B.x - A.x) * (B.x - A.x) + (B.y - A.y) * (B.y - A.y) + eps2) *
            ((B.x - A.x) * (B.x - A.x) + (B.y - A.y) * (B.y - A.y) + eps2)) =
        ((B.x - A.x) * (B.x - A.x) + (B.y - A.y) * (B.y - A.y) + eps2) ^
          (1.5 : ℝ) := by
    rw [show ((B.x - A.x) * (B.x - A.x) + (B.y - A.y) * (B.y - A.y) + eps2) *
          ((B.x - A.x) * (B.x - A.x) + (B.y - A.y) * (B.y - A.y) + eps2) *
          ((B.x - A.x) * (B.x - A.x) + (B.y - A.y) * (B.y - A.y) + eps2) =
        ((B.x - A.x) * (B.x - A.x) + (B.y - A.y) * (B.y - A.y) + eps2) ^
          (3 : ℕ) by ring]
    rw [Real.sqrt_eq_rpow, ← Real.rpow_natCast
      ((B.x - A.x) * (B.x - A.x) + (B.y - A.y) * (B.y - A.y) + eps2) 3,
      ← Real.rpow_mul hd2]
    norm_num
  simp only [calculate_newton_gravity_acceleration, Prod.mk.injEq]
  rw [key]
  constructor <;> ring

/-- Witness for C3 at `ε² = 1` and the two concrete bodies. -/
theorem kernel_matches_spec_formula_witness :
    (0 : ℝ) ≤ 1 ∧
      calculate_newton_gravity_acceleration 1 witnessBodyA witnessBodyB =
        (witnessBodyB.mass /
            ((witnessBodyB.x - witnessBodyA.x) * (witnessBodyB.x - witnessBodyA.x) +
              (witnessBodyB.y - witnessBodyA.y) * (witnessBodyB.y - witnessBodyA.y) +
              1) ^ (1.5 : ℝ) * (witnessBodyB.x - witnessBodyA.x),
          witnessBodyB.mass /
            ((witnessBodyB.x - witnessBodyA.x) * (witnessBodyB.x - witnessBodyA.x) +
              (witnessBodyB.y - witnessBodyA.y) * (witnessBodyB.y - witnessBodyA.y) +
              1) ^ (1.5 : ℝ) * (witnessBodyB.y - witnessBodyA.y)) :=
  ⟨zero_le_one, kernel_matches_spec_formula 1 witnessBodyA witnessBodyB zero_le_one⟩

/-! ### C4: the integrator is semi-implicit Euler -/

/-- C4: the integrator updates velocity with the current acceleration and
then position with the *already-updated* velocity; acceleration (and
mass) are left unchanged. -/
theorem integrate_semi_implicit_euler (b : Body) (dt : ℝ) :
    (integrate b dt).vx = b.vx + b.ax * dt ∧
    (integrate b dt).vy = b.vy + b.ay * dt ∧
    (integrate b dt).x = b.x + (b.vx + b.ax * dt) * dt ∧
    (integrate b dt).y = b.y + (b.vy + b.ay * dt) * dt ∧
    (integrate b dt).x = b.x + (integrate b dt).vx * dt ∧
    (integrate b dt).y = b.y + (integrate b dt).vy * dt ∧
    (integrate b dt).ax = b.ax ∧
    (integrate b dt).ay = b.ay :=
  ⟨rfl, rfl, rfl, rfl, rfl, rfl, rfl, rfl⟩

end NBody

namespace NBody

/-! ### Partition helper lemmas -/

/-- Under the asserted precondition, rank `r`'s loop visits exactly the
half-open range `[r · (N/W), (r+1) · (N/W))`: the end-clamp never fires. -/
lemma rankIndices_eq (N W r : ℕ) (hN : 0 < N) (hW : 0 < W)
    (hdvd : N % W = 0) (hr : r < W) :
    rankIndices N W r = List.range' (r * (N / W)) (N / W) := by
  have hdvd' : W ∣ N := Nat.dvd_of_mod_eq_zero hdvd
  have hmul : W * (N / W) = N := Nat.mul_div_cancel' hdvd'
  have hbpp : 0 < N / W := by
    rcases Nat.eq_zero_or_pos (N / W) with h | h
    · rw [h, Nat.mul_zero] at hmul; omega
    · exact h
  have hle : r * (N / W) + N / W ≤ N := by
    have h1 : (r + 1) * (N / W) ≤ W * (N / W) :=
      Nat.mul_le_mul_right _ (by omega)
    have h2 : (r + 1) * (N / W) = r * (N / W) + N / W := by ring
    omega
  simp only [rankIndices, bodiesPerProcess]
  rw [if_neg (by omega)]
  congr 1
  omega

/-- Concatenating the blocks `[r·bpp, (r+1)·bpp)` for `r < k` gives
`[0, k·bpp)`. -/
lemma flatten_range'_blocks (k bpp : ℕ) :
    ((List.range k).map (fun r => List.range' (r * bpp) bpp)).flatten =
      List.range (k * bpp) := by
  induction k with
  | zero => simp
  | succ k ih =>
    rw [List.range_succ, List.map_append, List.flatten_append, ih]
    simp only [List.map_cons, List.map_nil, List.flatten_cons, List.flatten_nil,
      List.append_nil]
    rw [List.range_eq_range', List.range_eq_range']
    have h := List.range'_append 0 (k * bpp) bpp 1
    simp only [Nat.one_mul, Nat.zero_add] at h
    rw [h]
    congr 1
    ring

/-- The gathered array is the compute map applied to every body index in
order: the per-rank buffers, concatenated in rank order, reconstruct
`[0, N)` exactly. -/
lemma gatherStep_eq_map (eps2 : ℝ) (W : ℕ) (bodies : List Body)
    (hN : 0 < bodies.length) (hW : 0 < W) (hdvd : bodies.length % W = 0) :
    gatherStep eps2 W bodies =
      (List.range bodies.length).map (computeBody eps2 bodies) := by
  have hmul : W * (bodies.length / W) = bodies.length :=
    Nat.mul_div_cancel' (Nat.dvd_of_mod_eq_zero hdvd)
  unfold gatherStep
  have h1 : (List.range W).map
        (fun rank => (rankIndices bodies.length W rank).map
          (computeBody eps2 bodies)) =
      (List.range W).map
        (fun rank => (List.range' (rank * (bodies.length / W))
          (bodies.length / W)).map (computeBody eps2 bodies)) :=
    List.map_congr_left (fun r hr => by
      rw [rankIndices_eq bodies.length W r hN hW hdvd (List.mem_range.mp hr)])
  have h2 : (List.range W).map
        (fun rank => (List.range' (rank * (bodies.length / W))
          (bodies.length / W)).map (computeBody eps2 bodies)) =
      List.map (List.map (computeBody eps2 bodies))
        ((List.range W).map
          (fun rank => List.range' (rank * (bodies.length / W))
            (bodies.length / W))) := by
    rw [List.map_map]
    rfl
  rw [h1, h2, ← List.map_flatten, flatten_range'_blocks, hmul]

end NBody

namespace NBody

/-! ### C7: the per-rank ranges partition the body indices -/

/-- C7: for `N % W = 0` (with at least one body and one rank), every
rank's index range is the contiguous block `[r·(N/W), (r+1)·(N/W))`, all
ranges have equal size `N/W`, distinct ranks' ranges never overlap, and
their concatenation in rank order is exactly `{0, …, N−1}`. -/
theorem partition_covers_exactly (N W : ℕ) (hN : 0 < N) (hW : 0 < W)
    (hdvd : N % W = 0) :
    (∀ r, r < W → rankIndices N W r = List.range' (r * (N / W)) (N / W)) ∧
    (∀ r, r < W → (rankIndices N W r).length = N / W) ∧
    (∀ r₁ r₂, r₁ < W → r₂ < W → r₁ ≠ r₂ →
      ∀ i, i ∈ rankIndices N W r₁ → i ∉ rankIndices N W r₂) ∧
    ((List.range W).map (rankIndices N W)).flatten = List.range N := by
  refine ⟨fun r hr => rankIndices_eq N W r hN hW hdvd hr,
    fun r hr => ?_, ?_, ?_⟩
  · rw [rankIndices_eq N W r hN hW hdvd hr, List.length_range']
  · intro r₁ r₂ h1 h2 hne i hi1 hi2
    rw [rankIndices_eq N W r₁ hN hW hdvd h1, List.mem_range'_1] at hi1
    rw [rankIndices_eq N W r₂ hN hW hdvd h2, List.mem_range'_1] at hi2
    rcases Nat.lt_or_ge r₁ r₂ with h | h
    · have hm : (r₁ + 1) * (N / W) ≤ r₂ * (N / W) :=
        Nat.mul_le_mul_right _ (by omega)
      have e : (r₁ + 1) * (N / W) = r₁ * (N / W) + N / W := by ring
      omega
    · have hlt : r₂ < r₁ := by omega
      have hm : (r₂ + 1) * (N / W) ≤ r₁ * (N / W) :=
        Nat.mul_le_mul_right _ (by omega)
      have e : (r₂ + 1) * (N / W) = r₂ * (N / W) + N / W := by ring
      omega
  · rw [List.map_congr_left
      (fun r hr => rankIndices_eq N W r hN hW hdvd (List.mem_range.mp hr)),
      flatten_range'_blocks,
      Nat.mul_div_cancel' (Nat.dvd_of_mod_eq_zero hdvd)]

/-- Witness for C7 at `N = 4`, `W = 2`. -/
theorem partition_covers_exactly_witness :
    (0 < 4 ∧ 0 < 2 ∧ 4 % 2 = 0) ∧
      ((∀ r, r < 2 → rankIndices 4 2 r = List.range' (r * (4 / 2)) (4 / 2)) ∧
        (∀ r, r < 2 → (rankIndices 4 2 r).length = 4 / 2) ∧
        (∀ r₁ r₂, r₁ < 2 → r₂ < 2 → r₁ ≠ r₂ →
          ∀ i, i ∈ rankIndices 4 2 r₁ → i ∉ rankIndices 4 2 r₂) ∧
        ((List.range 2).map (rankIndices 4 2)).flatten = List.range 4) :=
  ⟨⟨by decide, by decide, by decide⟩,
    partition_covers_exactly 4 2 (by decide) (by decide) (by decide)⟩

end NBody

namespace NBody

/-! ### Run-level helper lemmas -/

/-- Unfolding of `runSimulation` at zero iterations. -/
lemma runSimulation_zero (eps2 dt : ℝ) (W : ℕ) (bodies : List Body) :
    runSimulation eps2 dt W 0 bodies = (bodies, []) := rfl

/-- Unfolding of `runSimulation` at a successor iteration count. -/
lemma runSimulation_succ (eps2 dt : ℝ) (W k : ℕ) (bodies : List Body) :
    runSimulation eps2 dt W (k + 1) bodies =
      ((runSimulation eps2 dt W k (stepIteration eps2 dt W bodies).1).1,
        (stepIteration eps2 dt W bodies).2 ++
          (runSimulation eps2 dt W k (stepIteration eps2 dt W bodies).1).2) :=
  rfl

/-- Mapping an indexed read over `[0, l.length)` recovers mapping over
the list itself. -/
lemma range_map_getD {α β : Type} [Inhabited α] (f : α → β) (l : List α) :
    (List.range l.length).map (fun i => f (l.getD i default)) = l.map f := by
  induction l with
  | nil => simp
  | cons a t ih =>
    rw [List.length_cons, List.range_succ_eq_map]
    simp only [List.map_cons, List.map_map, List.getD_cons_zero]
    congr 1

/-- Under the asserted precondition one iteration is: compute-and-gather
in index order, integrate, and record the freshly computed accelerations
(which `integrate` does not touch). -/
lemma stepIteration_eq (eps2 dt : ℝ) (W : ℕ) (bodies : List Body)
    (hN : 0 < bodies.length) (hW : 0 < W) (hdvd : bodies.length % W = 0) :
    stepIteration eps2 dt W bodies =
      ((List.range bodies.length).map
          (fun i => integrate (computeBody eps2 bodies i) dt),
        (List.range bodies.length).map
          (fun i => ((totalAcceleration eps2 bodies i).1,
            (totalAcceleration eps2 bodies i).2))) := by
  simp only [stepIteration, gatherStep_eq_map eps2 W bodies hN hW hdvd,
    List.map_map]
  rfl

/-- The whole-run invariant: the state keeps its length, the history
grows by exactly `body_count` pairs per iteration, and the per-body mass
list never changes. -/
lemma runSimulation_invariant (eps2 dt : ℝ) (W N : ℕ) (hN : 0 < N)
    (hW : 0 < W) (hdvd : N % W = 0) :
    ∀ (iters : ℕ) (bodies : List Body), bodies.length = N →
      (runSimulation eps2 dt W iters bodies).1.length = N ∧
      (runSimulation eps2 dt W iters bodies).2.length = iters * N ∧
      (runSimulation eps2 dt W iters bodies).1.map Body.mass =
        bodies.map Body.mass := by
  intro iters
  induction iters with
  | zero =>
    intro bodies hlen
    exact ⟨hlen, by simp [runSimulation_zero], rfl⟩
  | succ k ih =>
    intro bodies hlen
    have hstep := stepIteration_eq eps2 dt W bodies (by omega) hW
      (by rw [hlen]; exact hdvd)
    have h1 : (stepIteration eps2 dt W bodies).1.length = N := by
      rw [hstep]
      simp [hlen]
    have h2 : (stepIteration eps2 dt W bodies).2.length = N := by
      rw [hstep]
      simp [hlen]
    have hm : (stepIteration eps2 dt W bodies).1.map Body.mass =
        bodies.map Body.mass := by
      rw [hstep]
      simp only [List.map_map]
      have hc : Body.mass ∘ (fun i => integrate (computeBody eps2 bodies i) dt) =
          fun i => Body.mass (bodies.getD i default) := rfl
      rw [hc, range_map_getD Body.mass bodies]
    obtain ⟨ih1, ih2, ih3⟩ := ih (stepIteration eps2 dt W bodies).1 h1
    rw [runSimulation_succ]
    refine ⟨ih1, ?_, (ih3.trans hm : _)⟩
    simp only [List.length_append, h2, ih2]
    ring

end NBody

namespace NBody

/-! ### C5, C6, C9 -/

/-- With a single body the self pair is skipped and the pairwise sum is
empty. -/
lemma totalAcceleration_single (eps2 : ℝ) (b : Body) :
    totalAcceleration eps2 [b] 0 = (0, 0) := by
  simp [totalAcceleration, List.range_succ]

/-- With one rank and one body the gathered array is just the one
recomputed body. -/
lemma gatherStep_single (eps2 : ℝ) (b : Body) :
    gatherStep eps2 1 [b] = [computeBody eps2 [b] 0] := by
  have hr : rankIndices 1 1 0 = [0] := by decide
  have hlen : ([b] : List Body).length = 1 := rfl
  unfold gatherStep
  rw [hlen, List.range_succ, List.range_zero]
  simp [hr]

/-- One iteration on a single body with a single rank: the body is
re-tagged with zero acceleration, integrated, and `(0, 0)` recorded. -/
lemma stepIteration_single (eps2 dt : ℝ) (b : Body) :
    stepIteration eps2 dt 1 [b] =
      ([integrate (computeBody eps2 [b] 0) dt], [((0 : ℝ), (0 : ℝ))]) := by
  simp only [stepIteration, gatherStep_single, List.map_cons, List.map_nil]
  have hax : (integrate (computeBody eps2 [b] 0) dt).ax =
      (totalAcceleration eps2 [b] 0).1 := rfl
  have hay : (integrate (computeBody eps2 [b] 0) dt).ay =
      (totalAcceleration eps2 [b] 0).2 := rfl
  rw [Prod.mk.injEq]
  refine ⟨rfl, ?_⟩
  rw [hax, hay, totalAcceleration_single eps2 b]

/-- In a single-body run every iteration records exactly `(0, 0)`. -/
lemma history_single_zero (eps2 dt : ℝ) : ∀ (iters : ℕ) (b : Body),
    (runSimulation eps2 dt 1 iters [b]).2 =
      List.replicate iters ((0 : ℝ), (0 : ℝ)) := by
  intro iters
  induction iters with
  | zero => intro b; rfl
  | succ k ih =>
    intro b
    rw [runSimulation_succ, stepIteration_single]
    simp only [List.singleton_append]
    rw [ih (integrate (computeBody eps2 [b] 0) dt)]
    rfl

/-- C5: the self pair is excluded from the pairwise sum, so with a body
count of 1 the sole body's total acceleration is exactly `(0, 0)` and
every iteration of the run records `(0, 0)` for it. -/
theorem self_pair_excluded (b : Body) (eps2 dt : ℝ) (iters : ℕ) :
    totalAcceleration eps2 [b] 0 = (0, 0) ∧
    (runSimulation eps2 dt 1 iters [b]).2 =
      List.replicate iters ((0 : ℝ), (0 : ℝ)) :=
  ⟨totalAcceleration_single eps2 b, history_single_zero eps2 dt iters b⟩

/-- C6: the iteration count is `⌊time_period / delta_time⌋` and the
acceleration history emitted at the end has exactly
`iterations * body_count` pairs. -/
theorem history_length_exact (T dt eps2 : ℝ) (N W : ℕ) (init : List Body)
    (hlen : init.length = N) (hN : 0 < N) (hW : 0 < W) (hdvd : N % W = 0) :
    iterationsOf T dt = Nat.floor (T / dt) ∧
    (runSimulation eps2 dt W (iterationsOf T dt) init).2.length =
      Nat.floor (T / dt) * N ∧
    (phase2Output (runSimulation eps2 dt W (iterationsOf T dt) init).2).length =
      Nat.floor (T / dt) * N := by
  have h := runSimulation_invariant eps2 dt W N hN hW hdvd
    (iterationsOf T dt) init hlen
  refine ⟨rfl, h.2.1, ?_⟩
  simpa [phase2Output] using h.2.1

/-- Witness for C6 at `T = 1`, `dt = 1`, one body, one rank. -/
theorem history_length_exact_witness :
    ([witnessBodyA].length = 1 ∧ 0 < 1 ∧ 1 % 1 = 0) ∧
      (iterationsOf 1 1 = Nat.floor ((1 : ℝ) / 1) ∧
        (runSimulation 0 1 1 (iterationsOf 1 1) [witnessBodyA]).2.length =
          Nat.floor ((1 : ℝ) / 1) * 1 ∧
        (phase2Output
          (runSimulation 0 1 1 (iterationsOf 1 1) [witnessBodyA]).2).length =
          Nat.floor ((1 : ℝ) / 1) * 1) :=
  ⟨⟨rfl, Nat.one_pos, rfl⟩,
    history_length_exact 1 1 0 1 1 [witnessBodyA] rfl Nat.one_pos Nat.one_pos rfl⟩

/-- C9: the compute phase copies position, velocity and mass unchanged
(only acceleration is replaced), the integrator never touches mass (nor
acceleration), and over any whole run the per-body mass list is exactly
the initial one. -/
theorem mass_never_mutated (eps2 dt : ℝ) (W : ℕ) (bodies : List Body)
    (i : ℕ) (b : Body) (iters : ℕ) (hN : 0 < bodies.length) (hW : 0 < W)
    (hdvd : bodies.length % W = 0) :
    (computeBody eps2 bodies i).x = (bodies.getD i default).x ∧
    (computeBody eps2 bodies i).y = (bodies.getD i default).y ∧
    (computeBody eps2 bodies i).vx = (bodies.getD i default).vx ∧
    (computeBody eps2 bodies i).vy = (bodies.getD i default).vy ∧
    (computeBody eps2 bodies i).mass = (bodies.getD i default).mass ∧
    (integrate b dt).mass = b.mass ∧
    (runSimulation eps2 dt W iters bodies).1.map Body.mass =
      bodies.map Body.mass :=
  ⟨rfl, rfl, rfl, rfl, rfl, rfl,
    (runSimulation_invariant eps2 dt W bodies.length hN hW hdvd iters
      bodies rfl).2.2⟩

/-- Witness for C9 on a concrete single-body store. -/
theorem mass_never_mutated_witness :
    (0 < [witnessBodyA].length ∧ 0 < 1 ∧ [witnessBodyA].length % 1 = 0) ∧
      ((computeBody 0 [witnessBodyA] 0).x =
          ([witnessBodyA].getD 0 default).x ∧
        (computeBody 0 [witnessBodyA] 0).y =
          ([witnessBodyA].getD 0 default).y ∧
        (computeBody 0 [witnessBodyA] 0).vx =
          ([witnessBodyA].getD 0 default).vx ∧
        (computeBody 0 [witnessBodyA] 0).vy =
          ([witnessBodyA].getD 0 default).vy ∧
        (computeBody 0 [witnessBodyA] 0).mass =
          ([witnessBodyA].getD 0 default).mass ∧
        (integrate witnessBodyB 1).mass = witnessBodyB.mass ∧
        (runSimulation 0 1 1 2 [witnessBodyA]).1.map Body.mass =
          [witnessBodyA].map Body.mass) :=
  ⟨⟨Nat.one_pos, Nat.one_pos, rfl⟩,
    mass_never_mutated 0 1 1 [witnessBodyA] 0 witnessBodyB 2
      Nat.one_pos Nat.one_pos rfl⟩

end NBody

namespace NBody

/-! ### C8: softening bounds the kernel away from singularity -/

/-- Arithmetic core of the softening bound: with `ε² > 0` and `m ≥ 0`, a
kernel component `c · m / √(d²·d²·d²)` with `c² ≤ rx² + ry²` is bounded
in magnitude by `m / ε²`. -/
lemma abs_kernel_comp_le (eps2 m rx ry c : ℝ) (heps : 0 < eps2) (hm : 0 ≤ m)
    (hc : c * c ≤ rx * rx + ry * ry) :
    |c * (m * (1 / Real.sqrt ((rx * rx + ry * ry + eps2) *
      (rx * rx + ry * ry + eps2) * (rx * rx + ry * ry + eps2))))| ≤
      m / eps2 := by
  set q := rx * rx + ry * ry with hq
  have hq0 : 0 ≤ q := by nlinarith [mul_self_nonneg rx, mul_self_nonneg ry]
  have hd2 : 0 < q + eps2 := by linarith
  set s := Real.sqrt eps2 with hsdef
  set t := Real.sqrt (q + eps2) with htdef
  have hs0 : 0 ≤ s := Real.sqrt_nonneg _
  have hs2 : s * s = eps2 := Real.mul_self_sqrt heps.le
  have ht0 : 0 < t := Real.sqrt_pos.mpr hd2
  have ht2 : t * t = q + eps2 := Real.mul_self_sqrt hd2.le
  have hst : s ≤ t := Real.sqrt_le_sqrt (by linarith)
  have hS : Real.sqrt ((q + eps2) * (q + eps2) * (q + eps2)) =
      (q + eps2) * t := by
    rw [Real.sqrt_mul (by positivity) (q + eps2)]
    rw [Real.sqrt_mul_self hd2.le]
  have hSpos : 0 < (q + eps2) * t := mul_pos hd2 ht0
  rw [hS]
  have habs : |c * (m * (1 / ((q + eps2) * t)))| =
      |c| * (m * (1 / ((q + eps2) * t))) := by
    rw [abs_mul]
    congr 1
    exact abs_of_nonneg (by positivity)
  rw [habs]
  have hrw : |c| * (m * (1 / ((q + eps2) * t))) =
      |c| * m / ((q + eps2) * t) := by
    ring
  rw [hrw, div_le_div_iff₀ hSpos heps]
  have hcc : |c| * |c| = c * c := abs_mul_abs_self c
  have hC0 : 0 ≤ |c| := abs_nonneg c
  have h2s : 2 * |c| * s ≤ q + eps2 := by nlinarith [sq_nonneg (|c| - s)]
  have key : |c| * eps2 ≤ (q + eps2) * t := by
    have k1 : (2 * |c| * s) * t ≤ (q + eps2) * t :=
      mul_le_mul_of_nonneg_right h2s ht0.le
    have k2 : (2 * |c| * s) * s ≤ (2 * |c| * s) * t :=
      mul_le_mul_of_nonneg_left hst (by positivity)
    have k3 : |c| * eps2 ≤ 2 * |c| * eps2 := by nlinarith
    nlinarith
  nlinarith [mul_le_mul_of_nonneg_left key hm]

/-- C8: with softening constant `ε² > 0` the kernel never divides by
zero — the square root of `d²·d²·d²` is strictly positive for every pair
of bodies — and both output components are bounded in magnitude by the
finite bound `B.mass / ε²`, uniformly in the separation. -/
theorem softening_prevents_blowup (eps2 : ℝ) (A B : Body)
    (heps : 0 < eps2) (hm : 0 ≤ B.mass) :
    0 < Real.sqrt
        (((B.x - A.x) * (B.x - A.x) + (B.y - A.y) * (B.y - A.y) + eps2) *
          ((B.x - A.x) * (B.x - A.x) + (B.y - A.y) * (B.y - A.y) + eps2) *
          ((B.x - A.x) * (B.x - A.x) + (B.y - A.y) * (B.y - A.y) + eps2)) ∧
    |(calculate_newton_gravity_acceleration eps2 A B).1| ≤ B.mass / eps2 ∧
    |(calculate_newton_gravity_acceleration eps2 A B).2| ≤ B.mass / eps2 := by
  have hd2 : 0 < (B.x - A.x) * (B.x - A.x) + (B.y - A.y) * (B.y - A.y) +
      eps2 := by
    nlinarith [mul_self_nonneg (B.x - A.x), mul_self_nonneg (B.y - A.y)]
  refine ⟨Real.sqrt_pos.mpr (by positivity), ?_, ?_⟩
  · exact abs_kernel_comp_le eps2 B.mass (B.x - A.x) (B.y - A.y) (B.x - A.x)
      heps hm (by nlinarith [mul_self_nonneg (B.y - A.y)])
  · exact abs_kernel_comp_le eps2 B.mass (B.x - A.x) (B.y - A.y) (B.y - A.y)
      heps hm (by nlinarith [mul_self_nonneg (B.x - A.x)])

/-- Witness for C8 at `ε² = 1` and the two concrete bodies. -/
theorem softening_prevents_blowup_witness :
    ((0 : ℝ) < 1 ∧ (0 : ℝ) ≤ witnessBodyB.mass) ∧
      (0 < Real.sqrt
          (((witnessBodyB.x - witnessBodyA.x) * (witnessBodyB.x - witnessBodyA.x) +
              (witnessBodyB.y - witnessBodyA.y) * (witnessBodyB.y - witnessBodyA.y) +
              1) *
            ((witnessBodyB.x - witnessBodyA.x) * (witnessBodyB.x - witnessBodyA.x) +
              (witnessBodyB.y - witnessBodyA.y) * (witnessBodyB.y - witnessBodyA.y) +
              1) *
            ((witnessBodyB.x - witnessBodyA.x) * (witnessBodyB.x - witnessBodyA.x) +
              (witnessBodyB.y - witnessBodyA.y) * (witnessBodyB.y - witnessBodyA.y) +
              1)) ∧
        |(calculate_newton_gravity_acceleration 1 witnessBodyA witnessBodyB).1| ≤
          witnessBodyB.mass / 1 ∧
        |(calculate_newton_gravity_acceleration 1 witnessBodyA witnessBodyB).2| ≤
          witnessBodyB.mass / 1) :=
  ⟨⟨one_pos, zero_le_two⟩,
    softening_prevents_blowup 1 witnessBodyA witnessBodyB one_pos zero_le_two⟩

end NBody

namespace NBody

/-! ### C1 and C10: output around the divisibility assertion -/

/-- The Phase-1 snapshot always has `3 + 4 · body_count` lines: the three
header lines plus four lines per body. -/
lemma phase1Output_length (N : ℕ) (T dt : ℝ) (init : List Body) :
    (phase1Output N T dt init).length = 3 + 4 * N := by
  have h : ∀ n : ℕ, ((List.range n).flatMap (fun i =>
      let body := init.getD i default
      ([OutLine.pair body.x body.y, OutLine.pair body.ax body.ay,
        OutLine.pair body.vx body.vy,
        OutLine.real body.mass] : List OutLine))).length = 4 * n := by
    intro n
    induction n with
    | zero => rfl
    | succ k ih =>
      rw [List.range_succ, List.flatMap_append]
      simp only [List.length_append, ih]
      simp
      omega
  simp only [phase1Output, List.length_append, List.length_cons,
    List.length_nil, h]

/-- C1 counterexample: with `body_count = 3` and `world_size = 2` the run
is aborted by the assertion, but the Phase-1 snapshot — 15 output
lines — has already been emitted (and the initial conditions generated)
before the abort, so output does happen before the fatal termination. -/
theorem abort_counterexample :
    runMain 10 1 3 2 0 [witnessBodyA, witnessBodyA, witnessBodyA] =
      RunResult.aborted
        (phase1Output 3 10 1 [witnessBodyA, witnessBodyA, witnessBodyA]) ∧
    (phase1Output 3 10 1 [witnessBodyA, witnessBodyA, witnessBodyA]).length =
      15 := by
  constructor
  · simp only [runMain]
    rw [if_pos (by decide)]
  · rw [phase1Output_length]

/-- C1 amended: if `body_count % world_size ≠ 0` the program terminates
fatally at the assertion before the iteration loop — so no force
computation, no integration and no Phase-2 output happen — but only
*after* rank 0 has generated the initial conditions and printed the
complete Phase-1 snapshot of `3 + 4 · body_count` lines. -/
theorem abort_after_phase1 (T dt : ℝ) (N W : ℕ) (eps2 : ℝ)
    (init : List Body) (h : N % W ≠ 0) :
    runMain T dt N W eps2 init =
      RunResult.aborted (phase1Output N T dt init) ∧
    (phase1Output N T dt init).length = 3 + 4 * N := by
  constructor
  · simp only [runMain]
    rw [if_pos h]
  · exact phase1Output_length N T dt init

/-- Witness for the amended C1 at `N = 3`, `W = 2`. -/
theorem abort_after_phase1_witness :
    (3 % 2 ≠ 0) ∧
      (runMain 10 1 3 2 0 [witnessBodyB, witnessBodyB, witnessBodyB] =
          RunResult.aborted
            (phase1Output 3 10 1 [witnessBodyB, witnessBodyB, witnessBodyB]) ∧
        (phase1Output 3 10 1 [witnessBodyB, witnessBodyB, witnessBodyB]).length =
          3 + 4 * 3) :=
  ⟨by decide,
    abort_after_phase1 10 1 3 2 0 [witnessBodyB, witnessBodyB, witnessBodyB]
      (by decide)⟩

/-- C10: when `delta_time` exceeds `time_period` the iteration count is
zero, yet the run completes normally (`EXIT_SUCCESS`) emitting the full
Phase-1 snapshot and zero Phase-2 lines. -/
theorem zero_iterations_still_outputs (T dt eps2 : ℝ) (N W : ℕ)
    (init : List Body) (hdvd : N % W = 0) (hTdt : T < dt) (hdt : 0 < dt) :
    iterationsOf T dt = 0 ∧
    runMain T dt N W eps2 init =
      RunResult.finished (phase1Output N T dt init) ∧
    (phase1Output N T dt init).length = 3 + 4 * N := by
  have h0 : iterationsOf T dt = 0 := by
    rw [iterationsOf, Nat.floor_eq_zero, div_lt_one hdt]
    exact hTdt
  refine ⟨h0, ?_, phase1Output_length N T dt init⟩
  simp only [runMain]
  rw [if_neg (by simpa using hdvd), h0, runSimulation_zero]
  simp [phase2Output]

/-- Witness for C10 at `T = 1`, `dt = 2`, two bodies, one rank. -/
theorem zero_iterations_still_outputs_witness :
    (2 % 1 = 0 ∧ (1 : ℝ) < 2 ∧ (0 : ℝ) < 2) ∧
      (iterationsOf 1 2 = 0 ∧
        runMain 1 2 2 1 0 [witnessBodyA, witnessBodyB] =
          RunResult.finished (phase1Output 2 1 2 [witnessBodyA, witnessBodyB]) ∧
        (phase1Output 2 1 2 [witnessBodyA, witnessBodyB]).length = 3 + 4 * 2) :=
  ⟨⟨rfl, one_lt_two, two_pos⟩,
    zero_iterations_still_outputs 1 2 0 2 1 [witnessBodyA, witnessBodyB]
      rfl one_lt_two two_pos⟩

end NBody

namespace NBody

/-! ### C2: the §8 end-to-end scenario is partition-invariant -/

/-- Kernel value for body 0 against body 1 in the scenario. -/
lemma kernel_scenario_01 :
    calculate_newton_gravity_acceleration 0 scenarioBody0 scenarioBody1 =
      (1, 0) := by
  unfold calculate_newton_gravity_acceleration scenarioBody0 scenarioBody1
  norm_num [Real.sqrt_one]

/-- Kernel value for body 1 against body 0 in the scenario. -/
lemma kernel_scenario_10 :
    calculate_newton_gravity_acceleration 0 scenarioBody1 scenarioBody0 =
      (-1, 0) := by
  unfold calculate_newton_gravity_acceleration scenarioBody1 scenarioBody0
  norm_num [Real.sqrt_one]

/-- Body 0's summed acceleration in the scenario: `(+1, 0)`. -/
lemma totalAcceleration_scenario_0 :
    totalAcceleration 0 scenarioInit 0 = (1, 0) := by
  have hr : List.range scenarioInit.length = [0, 1] := by decide
  unfold totalAcceleration
  rw [hr]
  simp only [List.foldl_cons, List.foldl_nil, if_pos, if_neg]
  rw [show scenarioInit.getD 0 default = scenarioBody0 from rfl,
    show scenarioInit.getD 1 default = scenarioBody1 from rfl,
    kernel_scenario_01]
  norm_num

/-- Body 1's summed acceleration in the scenario: `(−1, 0)`. -/
lemma totalAcceleration_scenario_1 :
    totalAcceleration 0 scenarioInit 1 = (-1, 0) := by
  have hr : List.range scenarioInit.length = [0, 1] := by decide
  unfold totalAcceleration
  rw [hr]
  simp only [List.foldl_cons, List.foldl_nil, if_pos, if_neg]
  rw [show scenarioInit.getD 1 default = scenarioBody1 from rfl,
    show scenarioInit.getD 0 default = scenarioBody0 from rfl,
    kernel_scenario_10]
  norm_num

/-- Compute-phase result for body 0 in the scenario. -/
lemma computeBody_scenario_0 :
    computeBody 0 scenarioInit 0 = ⟨0, 0, 1, 0, 0, 0, 1⟩ := by
  unfold computeBody
  rw [totalAcceleration_scenario_0]
  rfl

/-- Compute-phase result for body 1 in the scenario. -/
lemma computeBody_scenario_1 :
    computeBody 0 scenarioInit 1 = ⟨1, 0, -1, 0, 0, 0, 1⟩ := by
  unfold computeBody
  rw [totalAcceleration_scenario_1]
  rfl

/-- With one rank the whole scenario is one partition. -/
lemma gatherStep_scenario_1 :
    gatherStep 0 1 scenarioInit =
      [computeBody 0 scenarioInit 0, computeBody 0 scenarioInit 1] := by
  have hr0 : rankIndices 2 1 0 = [0, 1] := by decide
  have hlen : scenarioInit.length = 2 := rfl
  unfold gatherStep
  rw [hlen, show List.range 1 = [0] from by decide]
  simp [hr0]

/-- With two ranks each rank holds one body; the gather reassembles the
same array. -/
lemma gatherStep_scenario_2 :
    gatherStep 0 2 scenarioInit =
      [computeBody 0 scenarioInit 0, computeBody 0 scenarioInit 1] := by
  have hr0 : rankIndices 2 2 0 = [0] := by decide
  have hr1 : rankIndices 2 2 1 = [1] := by decide
  have hlen : scenarioInit.length = 2 := rfl
  unfold gatherStep
  rw [hlen, show List.range 2 = [0, 1] from by decide]
  simp [hr0, hr1]

/-- Integrating scenario body 0 after the compute phase. -/
lemma integrate_scenario_0 :
    integrate ⟨0, 0, 1, 0, 0, 0, 1⟩ (0.01 : ℝ) =
      ⟨0.0001, 0, 1, 0, 0.01, 0, 1⟩ := by
  simp [integrate, Body.mk.injEq]
  norm_num

/-- Integrating scenario body 1 after the compute phase. -/
lemma integrate_scenario_1 :
    integrate ⟨1, 0, -1, 0, 0, 0, 1⟩ (0.01 : ℝ) =
      ⟨0.9999, 0, -1, 0, -0.01, 0, 1⟩ := by
  simp [integrate, Body.mk.injEq]
  norm_num

/-- One scenario iteration with a single rank. -/
lemma stepIteration_scenario_1 :
    stepIteration 0 (0.01 : ℝ) 1 scenarioInit =
      ([⟨0.0001, 0, 1, 0, 0.01, 0, 1⟩, ⟨0.9999, 0, -1, 0, -0.01, 0, 1⟩],
        [((1 : ℝ), (0 : ℝ)), ((-1 : ℝ), (0 : ℝ))]) := by
  unfold stepIteration
  rw [gatherStep_scenario_1, computeBody_scenario_0, computeBody_scenario_1]
  simp only [List.map_cons, List.map_nil]
  rw [integrate_scenario_0, integrate_scenario_1]

/-- One scenario iteration with two ranks: identical to one rank. -/
lemma stepIteration_scenario_2 :
    stepIteration 0 (0.01 : ℝ) 2 scenarioInit =
      ([⟨0.0001, 0, 1, 0, 0.01, 0, 1⟩, ⟨0.9999, 0, -1, 0, -0.01, 0, 1⟩],
        [((1 : ℝ), (0 : ℝ)), ((-1 : ℝ), (0 : ℝ))]) := by
  unfold stepIteration
  rw [gatherStep_scenario_2, computeBody_scenario_0, computeBody_scenario_1]
  simp only [List.map_cons, List.map_nil]
  rw [integrate_scenario_0, integrate_scenario_1]

/-- The scenario run with one rank, one iteration. -/
lemma runSimulation_scenario_1 :
    runSimulation 0 (0.01 : ℝ) 1 1 scenarioInit =
      ([⟨0.0001, 0, 1, 0, 0.01, 0, 1⟩, ⟨0.9999, 0, -1, 0, -0.01, 0, 1⟩],
        [((1 : ℝ), (0 : ℝ)), ((-1 : ℝ), (0 : ℝ))]) := by
  rw [runSimulation_succ, stepIteration_scenario_1]
  simp [runSimulation_zero]

/-- The scenario run with two ranks, one iteration. -/
lemma runSimulation_scenario_2 :
    runSimulation 0 (0.01 : ℝ) 2 1 scenarioInit =
      ([⟨0.0001, 0, 1, 0, 0.01, 0, 1⟩, ⟨0.9999, 0, -1, 0, -0.01, 0, 1⟩],
        [((1 : ℝ), (0 : ℝ)), ((-1 : ℝ), (0 : ℝ))]) := by
  rw [runSimulation_succ, stepIteration_scenario_2]
  simp [runSimulation_zero]

/-- Floor of `0.01 / 0.01` is `1`: the scenario does one iteration. -/
lemma iterationsOf_scenario : iterationsOf (0.01 : ℝ) (0.01 : ℝ) = 1 := by
  rw [iterationsOf, show (0.01 : ℝ) / (0.01 : ℝ) = 1 from by norm_num,
    Nat.floor_one]

/-- C2: the §8 scenario (`N = 2`, unit masses at `(0,0)` and `(1,0)`, at
rest, `ε² = 0`, `Δt = 0.01`, one iteration) produces identical results
on one rank and on two ranks: accelerations `(+1, 0)` and `(−1, 0)`,
body 0 ends with velocity `(0.01, 0)` and position `(0.0001, 0)`, and
the emitted output of the whole run is the same for both world sizes. -/
theorem scenario_partition_invariant :
    runSimulation 0 (0.01 : ℝ) 1 1 scenarioInit =
      runSimulation 0 (0.01 : ℝ) 2 1 scenarioInit ∧
    runSimulation 0 (0.01 : ℝ) 1 1 scenarioInit =
      ([⟨0.0001, 0, 1, 0, 0.01, 0, 1⟩, ⟨0.9999, 0, -1, 0, -0.01, 0, 1⟩],
        [((1 : ℝ), (0 : ℝ)), ((-1 : ℝ), (0 : ℝ))]) ∧
    runMain (0.01 : ℝ) (0.01 : ℝ) 2 1 0 scenarioInit =
      runMain (0.01 : ℝ) (0.01 : ℝ) 2 2 0 scenarioInit := by
  refine ⟨runSimulation_scenario_1.trans runSimulation_scenario_2.symm,
    runSimulation_scenario_1, ?_⟩
  simp only [runMain]
  rw [if_neg (by decide), if_neg (by decide), iterationsOf_scenario,
    runSimulation_scenario_1, runSimulation_scenario_2]

end NBody
